import Mathlib

/-!
Shallow embedding of the MCP demo client (`client.py`), the resilient fetch
primitive (`openf1_utils.py`) and the F1 tool implementations
(`stdio_server.py`, `f1_types.py`), together with proofs about the claims of
the specification.
-/

namespace MCPDemo

/-! ## Data model of the conversation history (`self.messages` in `client.py`) -/

/-- A content block stored inside a history message: the dicts the client
appends (`{"type": "text", ...}`, `{"type": "tool_use", ...}`,
`{"type": "tool_result", ...}`). -/
inductive HistBlock where
  | text : String → HistBlock
  | toolUse : (id : String) → (name : String) → (input : String) → HistBlock
  | toolResult : (toolUseId : String) → (content : String) → HistBlock
deriving DecidableEq, Repr

/-- The `content` field of a history message: either a plain string (as in the
assistant text messages the client appends) or a list of blocks. -/
inductive MsgContent where
  | plain : String → MsgContent
  | blocks : List HistBlock → MsgContent
deriving DecidableEq, Repr

/-- One entry of `self.messages`: a role (`"user"` or `"assistant"`) and a
content payload. -/
structure Message where
  role : String
  content : MsgContent
deriving DecidableEq, Repr

/-- A content block of a model response (`response.content` in
`process_query`): a text block, or a tool-use block with id, name, input and
the optional accompanying `text` attribute the code tests with
`hasattr(content, "text") and content.text`. -/
inductive ContentBlock where
  | text : String → ContentBlock
  | toolUse : (id : String) → (name : String) → (input : String) →
      (accText : Option String) → ContentBlock
deriving DecidableEq, Repr

/-- The environment of tool executions: given the value of the per-query
tool-call counter at invocation time, a tool name and its arguments, the list
of textual pieces of `result.content` returned by `session.call_tool`. -/
def ToolEnv : Type := Nat → String → String → List String

/-- `" ".join([content.text for content in result.content])`. -/
def joinPieces (pieces : List String) : String :=
  String.intercalate " " pieces

/-- The state threaded through the body of the `while` loop of
`process_query`: the message history, the `tool_calls` counter and the `done`
flag. -/
structure LoopState where
  msgs : List Message
  tool_calls : Nat
  done : Bool
deriving DecidableEq, Repr

/-- Python truthiness of an optional string: `None` and `""` are falsy. -/
def pyTruthyStr : Option String → Bool
  | none => false
  | some s => s ≠ ""

/-- Processing of one block of `response.content` inside the `for` loop of
`process_query` (`client.py` lines 88-151). A `text` block is printed and
appended as an assistant message; a `tool_use` block clears `done`, appends
the assistant message (accompanying text plus the tool-use dict), executes the
tool, always increments `tool_calls`, and appends either the joined result or
the `"No response from tool"` placeholder, setting `done` back when the joined
result is empty. -/
def stepBlock (tools : ToolEnv) (st : LoopState) (b : ContentBlock) : LoopState :=
  match b with
  | .text t =>
      { st with msgs := st.msgs ++ [⟨"assistant", .plain t⟩] }
  | .toolUse id name input accText =>
      let current0 : List HistBlock :=
        if pyTruthyStr accText then [.text (accText.getD "")] else []
      let current := current0 ++ [.toolUse id name input]
      let msgs1 := st.msgs ++ [⟨"assistant", .blocks current⟩]
      let joined := joinPieces (tools st.tool_calls name input)
      if joined = "" then
        { msgs := msgs1 ++ [⟨"user", .blocks [.toolResult id "No response from tool"]⟩],
          tool_calls := st.tool_calls + 1,
          done := true }
      else
        { msgs := msgs1 ++ [⟨"user", .blocks [.toolResult id joined]⟩],
          tool_calls := st.tool_calls + 1,
          done := false }

/-- One round of the loop: `done = True`, then the `for content in
response.content` loop. -/
def processRound (tools : ToolEnv) (blocks : List ContentBlock)
    (msgs : List Message) (tc : Nat) : LoopState :=
  List.foldl (stepBlock tools) ⟨msgs, tc, true⟩ blocks

/-- The outcome of `process_query`: the final message history, the final
`tool_calls` counter, and the number of model-inference calls issued. -/
structure QueryResult where
  msgs : List Message
  tool_calls : Nat
  ncalls : Nat
deriving DecidableEq, Repr

/-- The `while not done and tool_calls < max_tool_calls` loop of
`process_query`, written with explicit fuel; `processLoopF_fuel_stable` below
shows any fuel of at least `maxCalls - tc` computes the loop's actual
fixpoint, so `process_query` uses `max_tool_calls` as fuel. `responses i` is
the value of `response.content` for the `i`-th inference call. -/
def processLoopF (tools : ToolEnv) (responses : Nat → List ContentBlock)
    (maxCalls : Nat) : Nat → Nat → List Message → Nat → QueryResult
  | 0, _, msgs, tc => ⟨msgs, tc, 0⟩
  | fuel + 1, i, msgs, tc =>
      if tc < maxCalls then
        let st := processRound tools (responses i) msgs tc
        if st.done then ⟨st.msgs, st.tool_calls, 1⟩
        else
          let r := processLoopF tools responses maxCalls fuel (i + 1) st.msgs st.tool_calls
          ⟨r.msgs, r.tool_calls, r.ncalls + 1⟩
      else ⟨msgs, tc, 0⟩

/-- `MCPClient.process_query`: append the user message, then run the loop with
`done = False`, `tool_calls = 0`. -/
def process_query (tools : ToolEnv) (responses : Nat → List ContentBlock)
    (msgs : List Message) (query : String) (max_tool_calls : Nat) : QueryResult :=
  processLoopF tools responses max_tool_calls max_tool_calls 0
    (msgs ++ [⟨"user", .plain query⟩]) 0

/-! ## The resilient fetch primitive (`openf1_utils.get_response`) -/

/-- The underlying HTTP world for one URL: `attempts n` is the outcome of the
`n`-th request attempt — `some payload` when the request succeeds and parses,
`none` when any exception is raised (network error, non-2xx status, decode
failure). The payload is kept opaque as a string. -/
def Attempts : Type := Nat → Option String

/-- The `while retries < max_retries` loop of `get_response`
(`openf1_utils.py` lines 12-27), instrumented with the number of attempts
made. On success the payload is returned; on failure `retries` is incremented
and, when it reaches `max_retries`, `None` is returned. The fuel equals
`max_retries - retries`, which is exact: the loop guard fails precisely when
the fuel runs out. -/
def getResponseLoop (attempts : Attempts) (max_retries : Nat) :
    Nat → Nat → Option String × Nat
  | 0, _ => (none, 0)
  | fuel + 1, retries =>
      match attempts retries with
      | some payload => (some payload, 1)
      | none =>
          if retries + 1 = max_retries then (none, 1)
          else
            let r := getResponseLoop attempts max_retries fuel (retries + 1)
            (r.1, r.2 + 1)

/-- `get_response(url)` with `max_retries = 5`: first component is the value
returned to the caller (`some payload` or the `None` absence signal), second
component the number of HTTP attempts made. -/
def get_response (attempts : Attempts) : Option String × Nat :=
  getResponseLoop attempts 5 5 0

/-! ## The F1 tool implementations (`stdio_server.py`, `f1_types.py`) -/

def BASE_URL : String := "https://api.openf1.org/v1"

/-- Python truthiness of an optional int: `None` and `0` are falsy. -/
def pyTruthyInt : Option Int → Bool
  | none => false
  | some n => n ≠ 0

/-- The URL built by `get_sessions` (`stdio_server.py` lines 29-31). -/
def sessionsUrl (date_start : String) (session_type : Option String) : String :=
  let url := BASE_URL ++ "/sessions?date_start>=" ++ date_start
  if pyTruthyStr session_type then
    url ++ "&session_type=" ++ session_type.getD ""
  else url

/-- The meetings URL built inside the loop of `get_sessions`
(`stdio_server.py` line 39). -/
def meetingsUrl (meeting_key : Int) : String :=
  BASE_URL ++ "/meetings?meeting_key=" ++ toString meeting_key

/-- The URL built by `get_drivers` (`stdio_server.py` lines 61-63): the
`driver_number` filter is appended only when `driver_number` is truthy. -/
def driversUrl (session_key : Int) (driver_number : Option Int) : String :=
  let url := BASE_URL ++ "/drivers?session_key=" ++ toString session_key
  if pyTruthyInt driver_number then
    url ++ "&driver_number=" ++ toString (driver_number.getD 0)
  else url

/-- The URL built by `get_laps` (`stdio_server.py` line 81). -/
def lapsUrl (session_key : Int) (driver_number : Int) : String :=
  BASE_URL ++ "/laps?session_key=" ++ toString session_key ++
    "&driver_number=" ++ toString driver_number

/-- The URL built by `get_track_conditions` (`stdio_server.py` lines 114-116). -/
def weatherUrl (session_key : Int) (start_date : Option String) : String :=
  let url := BASE_URL ++ "/weather?session_key=" ++ toString session_key
  if pyTruthyStr start_date then
    url ++ "&date>=" ++ start_date.getD ""
  else url

/-- A raw session object of the upstream payload: its `meeting_key` plus the
remaining fields kept opaque. -/
structure SessionJson where
  meeting_key : Int
  rest : String
deriving DecidableEq, Repr

/-- A raw meeting object, kept opaque. -/
structure MeetingJson where
  rest : String
deriving DecidableEq, Repr

/-- `Session(**{**session, **meeting_response[0]})`: the merged record. -/
structure Session where
  sessionData : SessionJson
  meetingData : MeetingJson
deriving DecidableEq, Repr

/-- A raw driver object, kept opaque. -/
structure DriverJson where
  rest : String
deriving DecidableEq, Repr

/-- `Driver(**driver)`. -/
structure Driver where
  driverData : DriverJson
deriving DecidableEq, Repr

/-- `MiniSectorValue` (`f1_types.py`). -/
structure MiniSectorValue where
  performance : String
deriving DecidableEq, Repr

/-- `MiniSectorValue.from_value` (`f1_types.py` lines 56-70). -/
def MiniSectorValue.from_value (value : Int) : MiniSectorValue :=
  if value = 0 then ⟨"Not available"⟩
  else if value = 2048 then ⟨"Yellow"⟩
  else if value = 2049 then ⟨"Green"⟩
  else if value = 2051 then ⟨"Purple"⟩
  else if value = 2064 then ⟨"Pitlane"⟩
  else ⟨"Unknown Performance"⟩

/-- A raw lap object: the three mini-sector lists as raw integers, the other
fields kept opaque. -/
structure LapJson where
  segments_sector_1 : List Int
  segments_sector_2 : List Int
  segments_sector_3 : List Int
  rest : String
deriving DecidableEq, Repr

/-- `Lap(**lap_data)`: the lap with the mini-sector values decoded. -/
structure Lap where
  segments_sector_1 : List MiniSectorValue
  segments_sector_2 : List MiniSectorValue
  segments_sector_3 : List MiniSectorValue
  rest : String
deriving DecidableEq, Repr

/-- A raw weather object, kept opaque. -/
structure TrackConditionsJson where
  rest : String
deriving DecidableEq, Repr

/-- `TrackConditions(**track_condition)`. -/
structure TrackConditions where
  conditionsData : TrackConditionsJson
deriving DecidableEq, Repr

/-- `get_sessions` (`stdio_server.py` lines 16-46). The two fetch functions
are the typed views of `get_response` at the two endpoints; `none` is the
absence signal. The result is `none` when the body raises (the
`meeting_response[0]` subscript on an empty non-`None` meetings payload),
`some` of the session list otherwise. A `None` meetings response for one
session skips it (`continue`). -/
def get_sessions (fetchSessions : String → Option (List SessionJson))
    (fetchMeetings : String → Option (List MeetingJson))
    (date_start : String) (session_type : Option String) :
    Option (List Session) :=
  match fetchSessions (sessionsUrl date_start session_type) with
  | none => some []
  | some sessionList =>
      sessionList.foldl
        (fun acc s =>
          match acc with
          | none => none
          | some sessions =>
              match fetchMeetings (meetingsUrl s.meeting_key) with
              | none => some sessions
              | some [] => none
              | some (m :: _) => some (sessions ++ [⟨s, m⟩]))
        (some [])

/-- `get_drivers` (`stdio_server.py` lines 49-68). -/
def get_drivers (fetch : String → Option (List DriverJson))
    (session_key : Int) (driver_number : Option Int) : List Driver :=
  match fetch (driversUrl session_key driver_number) with
  | none => []
  | some drivers => drivers.map (fun d => ⟨d⟩)

/-- `get_laps` (`stdio_server.py` lines 71-99). -/
def get_laps (fetch : String → Option (List LapJson))
    (session_key : Int) (driver_number : Int) : List Lap :=
  match fetch (lapsUrl session_key driver_number) with
  | none => []
  | some laps =>
      laps.map (fun lap =>
        ⟨lap.segments_sector_1.map MiniSectorValue.from_value,
         lap.segments_sector_2.map MiniSectorValue.from_value,
         lap.segments_sector_3.map MiniSectorValue.from_value,
         lap.rest⟩)

/-- `get_track_conditions` (`stdio_server.py` lines 102-124). -/
def get_track_conditions (fetch : String → Option (List TrackConditionsJson))
    (session_key : Int) (start_date : Option String) : List TrackConditions :=
  match fetch (weatherUrl session_key start_date) with
  | none => []
  | some conditions => conditions.map (fun c => ⟨c⟩)

/-! ## Derived notions used by the statements -/

/-- Number of tool-use blocks in a model response. -/
def countToolUse : List ContentBlock → Nat
  | [] => 0
  | .text _ :: rest => countToolUse rest
  | .toolUse _ _ _ _ :: rest => countToolUse rest + 1

/-- Whether a model response still contains a tool-use block. -/
def hasToolUse : List ContentBlock → Bool
  | [] => false
  | .text _ :: rest => hasToolUse rest
  | .toolUse _ _ _ _ :: _ => true

/-- Whether a response block is a text block. -/
def isText : ContentBlock → Bool
  | .text _ => true
  | .toolUse _ _ _ _ => false

/-- The assistant message appended for a text block. -/
def asAssistantText : ContentBlock → Message
  | .text t => ⟨"assistant", .plain t⟩
  | .toolUse _ _ _ _ => ⟨"assistant", .plain ""⟩

/-- The id of the tool-use block carried by a message, if any. -/
def msgToolUseId (m : Message) : Option String :=
  match m.content with
  | .plain _ => none
  | .blocks bs =>
      bs.findSome? (fun b =>
        match b with
        | .toolUse i _ _ => some i
        | _ => none)

/-- Whether a message is exactly the tool-result message answering the
invocation with id `i`. -/
def isToolResultFor (i : String) (m : Message) : Bool :=
  match m with
  | ⟨"user", .blocks [.toolResult j _]⟩ => j = i
  | _ => false

/-- Every message carrying a tool-use block is immediately followed by the
tool-result message correlated by its id. -/
def toolUseAnswered : List Message → Bool
  | [] => true
  | m :: rest =>
      match msgToolUseId m with
      | some i =>
          match rest with
          | [] => false
          | m2 :: _ => isToolResultFor i m2 && toolUseAnswered rest
      | none => toolUseAnswered rest

/-! ## Lemmas about the orchestration loop -/

theorem stepBlock_text_eq (tools : ToolEnv) (st : LoopState) (t : String) :
    stepBlock tools st (.text t) =
      ⟨st.msgs ++ [⟨"assistant", .plain t⟩], st.tool_calls, st.done⟩ := rfl

theorem stepBlock_toolUse_tool_calls (tools : ToolEnv) (st : LoopState)
    (id name input : String) (accText : Option String) :
    (stepBlock tools st (.toolUse id name input accText)).tool_calls =
      st.tool_calls + 1 := by
  simp only [stepBlock]
  split <;> rfl

/-- Each processed block increments `tool_calls` exactly when it is a tool-use
block, so a whole round adds exactly the number of tool-use blocks of the
response. -/
theorem foldl_stepBlock_tool_calls (tools : ToolEnv) :
    ∀ (bs : List ContentBlock) (st : LoopState),
      (List.foldl (stepBlock tools) st bs).tool_calls =
        st.tool_calls + countToolUse bs := by
  intro bs
  induction bs with
  | nil => intro st; simp [countToolUse]
  | cons b bs ih =>
      intro st
      rw [List.foldl_cons, ih]
      cases b with
      | text t => simp [countToolUse, stepBlock_text_eq]
      | toolUse id name input accText =>
          rw [stepBlock_toolUse_tool_calls]
          simp [countToolUse]
          omega

theorem processRound_tool_calls (tools : ToolEnv) (blocks : List ContentBlock)
    (msgs : List Message) (tc : Nat) :
    (processRound tools blocks msgs tc).tool_calls = tc + countToolUse blocks :=
  foldl_stepBlock_tool_calls tools blocks ⟨msgs, tc, true⟩

/-- If a round starts with `done = true` (as every round does) and ends with
`done = false`, at least one tool-use block was processed, so `tool_calls`
strictly increased. -/
theorem foldl_stepBlock_done_false_lt (tools : ToolEnv) :
    ∀ (bs : List ContentBlock) (st : LoopState), st.done = true →
      (List.foldl (stepBlock tools) st bs).done = false →
      st.tool_calls < (List.foldl (stepBlock tools) st bs).tool_calls := by
  intro bs
  induction bs with
  | nil =>
      intro st h1 h2
      rw [List.foldl_nil] at h2
      rw [h1] at h2
      exact absurd h2 (by simp)
  | cons b bs ih =>
      intro st h1 h2
      rw [List.foldl_cons] at h2 ⊢
      cases b with
      | text t =>
          exact ih (stepBlock tools st (.text t)) h1 h2
      | toolUse id name input accText =>
          have h3 := foldl_stepBlock_tool_calls tools bs
            (stepBlock tools st (.toolUse id name input accText))
          rw [stepBlock_toolUse_tool_calls] at h3
          omega

theorem processRound_done_false_lt (tools : ToolEnv) (blocks : List ContentBlock)
    (msgs : List Message) (tc : Nat)
    (h : (processRound tools blocks msgs tc).done = false) :
    tc < (processRound tools blocks msgs tc).tool_calls :=
  foldl_stepBlock_done_false_lt tools blocks ⟨msgs, tc, true⟩ rfl h

/-- One-step unfolding of `processLoopF` at fuel zero. -/
theorem processLoopF_zero (tools : ToolEnv) (responses : Nat → List ContentBlock)
    (maxCalls i : Nat) (msgs : List Message) (tc : Nat) :
    processLoopF tools responses maxCalls 0 i msgs tc = ⟨msgs, tc, 0⟩ := rfl

/-- One-step unfolding of `processLoopF` at successor fuel. -/
theorem processLoopF_succ (tools : ToolEnv) (responses : Nat → List ContentBlock)
    (maxCalls fuel i : Nat) (msgs : List Message) (tc : Nat) :
    processLoopF tools responses maxCalls (fuel + 1) i msgs tc =
      if tc < maxCalls then
        if (processRound tools (responses i) msgs tc).done then
          ⟨(processRound tools (responses i) msgs tc).msgs,
           (processRound tools (responses i) msgs tc).tool_calls, 1⟩
        else
          ⟨(processLoopF tools responses maxCalls fuel (i + 1)
              (processRound tools (responses i) msgs tc).msgs
              (processRound tools (responses i) msgs tc).tool_calls).msgs,
           (processLoopF tools responses maxCalls fuel (i + 1)
              (processRound tools (responses i) msgs tc).msgs
              (processRound tools (responses i) msgs tc).tool_calls).tool_calls,
           (processLoopF tools responses maxCalls fuel (i + 1)
              (processRound tools (responses i) msgs tc).msgs
              (processRound tools (responses i) msgs tc).tool_calls).ncalls + 1⟩
      else ⟨msgs, tc, 0⟩ := rfl

/-- Any fuel of at least `maxCalls - tc` is enough: adding one more unit of
fuel does not change the outcome of the loop, because each continued round
strictly increases `tool_calls` and the loop guard requires
`tool_calls < maxCalls`. -/
theorem processLoopF_fuel_stable (tools : ToolEnv)
    (responses : Nat → List ContentBlock) (maxCalls : Nat) :
    ∀ (fuel i : Nat) (msgs : List Message) (tc : Nat), maxCalls - tc ≤ fuel →
      processLoopF tools responses maxCalls (fuel + 1) i msgs tc =
        processLoopF tools responses maxCalls fuel i msgs tc := by
  intro fuel
  induction fuel with
  | zero =>
      intro i msgs tc h
      have hge : ¬ tc < maxCalls := by omega
      rw [processLoopF_succ, if_neg hge, processLoopF_zero]
  | succ f ih =>
      intro i msgs tc h
      conv_lhs => rw [processLoopF_succ]
      conv_rhs => rw [processLoopF_succ]
      by_cases hlt : tc < maxCalls
      · simp only [if_pos hlt]
        by_cases hdone : (processRound tools (responses i) msgs tc).done = true
        · simp only [if_pos hdone]
        · have hfalse : (processRound tools (responses i) msgs tc).done = false := by
            simpa using hdone
          have hlt2 := processRound_done_false_lt tools (responses i) msgs tc hfalse
          simp only [if_neg hdone]
          rw [ih (i + 1) (processRound tools (responses i) msgs tc).msgs
              (processRound tools (responses i) msgs tc).tool_calls (by omega)]
      · simp only [if_neg hlt]

/-- Fuel irrelevance: any fuel of at least `maxCalls - tc` computes the same
result as fuel `maxCalls - tc`, i.e. the fuel-indexed loop has converged to
the actual while-loop semantics. -/
theorem processLoopF_fuel_ge (tools : ToolEnv)
    (responses : Nat → List ContentBlock) (maxCalls : Nat) :
    ∀ (fuel i : Nat) (msgs : List Message) (tc : Nat), maxCalls - tc ≤ fuel →
      processLoopF tools responses maxCalls fuel i msgs tc =
        processLoopF tools responses maxCalls (maxCalls - tc) i msgs tc := by
  have haux : ∀ (d i : Nat) (msgs : List Message) (tc : Nat),
      processLoopF tools responses maxCalls (maxCalls - tc + d) i msgs tc =
        processLoopF tools responses maxCalls (maxCalls - tc) i msgs tc := by
    intro d
    induction d with
    | zero => intro i msgs tc; rfl
    | succ d ih =>
        intro i msgs tc
        have heq : maxCalls - tc + (d + 1) = (maxCalls - tc + d) + 1 := by omega
        rw [heq, processLoopF_fuel_stable tools responses maxCalls _ i msgs tc (by omega),
          ih]
  intro fuel i msgs tc h
  have heq : fuel = maxCalls - tc + (fuel - (maxCalls - tc)) := by omega
  rw [heq, haux]

/-- The loop issues at most `maxCalls - tc` inference calls. -/
theorem processLoopF_ncalls_le (tools : ToolEnv)
    (responses : Nat → List ContentBlock) (maxCalls : Nat) :
    ∀ (fuel i : Nat) (msgs : List Message) (tc : Nat),
      (processLoopF tools responses maxCalls fuel i msgs tc).ncalls ≤
        maxCalls - tc := by
  intro fuel
  induction fuel with
  | zero => intro i msgs tc; rw [processLoopF_zero]; exact Nat.zero_le _
  | succ f ih =>
      intro i msgs tc
      by_cases hlt : tc < maxCalls
      · rw [processLoopF_succ, if_pos hlt]
        by_cases hdone : (processRound tools (responses i) msgs tc).done = true
        · rw [if_pos hdone]
          show 1 ≤ maxCalls - tc
          omega
        · have hfalse : (processRound tools (responses i) msgs tc).done = false := by
            simpa using hdone
          have hlt2 := processRound_done_false_lt tools (responses i) msgs tc hfalse
          rw [if_neg hdone]
          have := ih (i + 1) (processRound tools (responses i) msgs tc).msgs
            (processRound tools (responses i) msgs tc).tool_calls
          show (processLoopF tools responses maxCalls f (i + 1)
              (processRound tools (responses i) msgs tc).msgs
              (processRound tools (responses i) msgs tc).tool_calls).ncalls + 1 ≤
            maxCalls - tc
          omega
      · rw [processLoopF_succ, if_neg hlt]
        exact Nat.zero_le _

/-- If every model response holds at most `B` tool-use blocks, the final
counter is bounded by `max tc (maxCalls - 1 + B)`: the counter is below
`maxCalls` whenever a round begins, and one round adds at most `B`. -/
theorem processLoopF_tool_calls_le (tools : ToolEnv)
    (responses : Nat → List ContentBlock) (maxCalls B : Nat)
    (hB : ∀ j, countToolUse (responses j) ≤ B) :
    ∀ (fuel i : Nat) (msgs : List Message) (tc : Nat),
      (processLoopF tools responses maxCalls fuel i msgs tc).tool_calls ≤
        max tc (maxCalls - 1 + B) := by
  intro fuel
  induction fuel with
  | zero => intro i msgs tc; rw [processLoopF_zero]; exact le_max_left _ _
  | succ f ih =>
      intro i msgs tc
      by_cases hlt : tc < maxCalls
      · rw [processLoopF_succ, if_pos hlt]
        have hround := processRound_tool_calls tools (responses i) msgs tc
        have hBi := hB i
        by_cases hdone : (processRound tools (responses i) msgs tc).done = true
        · rw [if_pos hdone]
          show (processRound tools (responses i) msgs tc).tool_calls ≤
            max tc (maxCalls - 1 + B)
          omega
        · rw [if_neg hdone]
          have := ih (i + 1) (processRound tools (responses i) msgs tc).msgs
            (processRound tools (responses i) msgs tc).tool_calls
          show (processLoopF tools responses maxCalls f (i + 1)
              (processRound tools (responses i) msgs tc).msgs
              (processRound tools (responses i) msgs tc).tool_calls).tool_calls ≤
            max tc (maxCalls - 1 + B)
          omega
      · rw [processLoopF_succ, if_neg hlt]
        exact le_max_left _ _

/-- A response of text blocks only appends one assistant message per block and
leaves the counter and the `done` flag unchanged. -/
theorem foldl_stepBlock_all_text (tools : ToolEnv) :
    ∀ (bs : List ContentBlock) (st : LoopState),
      (∀ b ∈ bs, isText b = true) →
      List.foldl (stepBlock tools) st bs =
        ⟨st.msgs ++ bs.map asAssistantText, st.tool_calls, st.done⟩ := by
  intro bs
  induction bs with
  | nil => intro st _; simp
  | cons b bs ih =>
      intro st hall
      cases b with
      | text t =>
          rw [List.foldl_cons, stepBlock_text_eq,
            ih _ (fun b hb => hall b (List.mem_cons_of_mem _ hb))]
          simp [asAssistantText]
      | toolUse id name input accText =>
          have := hall _ (List.mem_cons_self _ _)
          simp [isText] at this

theorem hasToolUse_eq_false :
    ∀ (bs : List ContentBlock), hasToolUse bs = false →
      ∀ b ∈ bs, isText b = true := by
  intro bs
  induction bs with
  | nil => intro _ b hb; cases hb
  | cons a l ih =>
      intro h b hb
      cases a with
      | text t =>
          simp only [hasToolUse] at h
          rcases List.mem_cons.mp hb with h1 | h1
          · subst h1; rfl
          · exact ih h b h1
      | toolUse id name input accText => simp [hasToolUse] at h

/-- A tool-use block with an empty joined result appends the assistant
message, then the placeholder tool-result message, increments the counter and
sets `done`. -/
theorem stepBlock_toolUse_empty (tools : ToolEnv) (st : LoopState)
    (id name input : String) (accText : Option String)
    (h : joinPieces (tools st.tool_calls name input) = "") :
    stepBlock tools st (.toolUse id name input accText) =
      ⟨st.msgs ++
          [⟨"assistant", .blocks ((if pyTruthyStr accText then
              [HistBlock.text (accText.getD "")] else []) ++
              [.toolUse id name input])⟩,
           ⟨"user", .blocks [.toolResult id "No response from tool"]⟩],
        st.tool_calls + 1, true⟩ := by
  simp only [stepBlock]
  rw [if_pos h, List.append_assoc]
  rfl

/-- After a tool-use block with an empty joined result, if the remaining
blocks of the response contain no further tool-use block, the rest of the
round only appends assistant text messages: the round ends with `done = true`
and the placeholder tool-result in the history. -/
theorem foldl_stepBlock_empty_then_text (tools : ToolEnv) (st : LoopState)
    (id name input : String) (accText : Option String)
    (rest : List ContentBlock)
    (hempty : joinPieces (tools st.tool_calls name input) = "")
    (hrest : hasToolUse rest = false) :
    List.foldl (stepBlock tools)
        (stepBlock tools st (.toolUse id name input accText)) rest =
      ⟨st.msgs ++
          [⟨"assistant", .blocks ((if pyTruthyStr accText then
              [HistBlock.text (accText.getD "")] else []) ++
              [.toolUse id name input])⟩,
           ⟨"user", .blocks [.toolResult id "No response from tool"]⟩] ++
          rest.map asAssistantText,
        st.tool_calls + 1, true⟩ := by
  rw [stepBlock_toolUse_empty tools st id name input accText hempty,
    foldl_stepBlock_all_text tools rest _ (hasToolUse_eq_false rest hrest)]

/-! ## The tool-use / tool-result adjacency invariant -/

theorem toolUseAnswered_append_one :
    ∀ (l : List Message) (m : Message), toolUseAnswered l = true →
      msgToolUseId m = none → toolUseAnswered (l ++ [m]) = true := by
  intro l
  induction l with
  | nil =>
      intro m _ hm
      simp [toolUseAnswered, hm]
  | cons a l ih =>
      intro m hl hm
      cases hi : msgToolUseId a with
      | none =>
          rw [List.cons_append]
          simp only [toolUseAnswered, hi] at hl ⊢
          exact ih m hl hm
      | some i =>
          cases l with
          | nil => simp [toolUseAnswered, hi] at hl
          | cons b l' =>
              simp only [toolUseAnswered, hi, Bool.and_eq_true] at hl
              rw [List.cons_append]
              simp only [toolUseAnswered, hi, List.cons_append, Bool.and_eq_true]
              exact ⟨hl.1, ih m hl.2 hm⟩

theorem toolUseAnswered_append_pair :
    ∀ (l : List Message) (m1 m2 : Message) (i : String),
      toolUseAnswered l = true → msgToolUseId m1 = some i →
      isToolResultFor i m2 = true → msgToolUseId m2 = none →
      toolUseAnswered (l ++ [m1, m2]) = true := by
  intro l
  induction l with
  | nil =>
      intro m1 m2 i _ h1 h2 h3
      simp [toolUseAnswered, h1, h2, h3]
  | cons a l ih =>
      intro m1 m2 i hl h1 h2 h3
      cases hi : msgToolUseId a with
      | none =>
          rw [List.cons_append]
          simp only [toolUseAnswered, hi] at hl ⊢
          exact ih m1 m2 i hl h1 h2 h3
      | some j =>
          cases l with
          | nil => simp [toolUseAnswered, hi] at hl
          | cons b l' =>
              simp only [toolUseAnswered, hi, Bool.and_eq_true] at hl
              rw [List.cons_append]
              simp only [toolUseAnswered, hi, List.cons_append, Bool.and_eq_true]
              exact ⟨hl.1, ih m1 m2 i hl.2 h1 h2 h3⟩

theorem msgToolUseId_assistant_current (id name input : String)
    (accText : Option String) :
    msgToolUseId ⟨"assistant",
      .blocks ((if pyTruthyStr accText then [HistBlock.text (accText.getD "")]
        else []) ++ [.toolUse id name input])⟩ = some id := by
  cases hpt : pyTruthyStr accText <;>
    simp [msgToolUseId, List.findSome?_cons, List.findSome?]

theorem stepBlock_answered (tools : ToolEnv) (st : LoopState) (b : ContentBlock)
    (h : toolUseAnswered st.msgs = true) :
    toolUseAnswered (stepBlock tools st b).msgs = true := by
  cases b with
  | text t =>
      rw [stepBlock_text_eq]
      exact toolUseAnswered_append_one st.msgs _ h rfl
  | toolUse id name input accText =>
      simp only [stepBlock]
      split
      · rw [List.append_assoc]
        exact toolUseAnswered_append_pair st.msgs _ _ id h
          (msgToolUseId_assistant_current id name input accText)
          (by simp [isToolResultFor]) rfl
      · rw [List.append_assoc]
        exact toolUseAnswered_append_pair st.msgs _ _ id h
          (msgToolUseId_assistant_current id name input accText)
          (by simp [isToolResultFor]) rfl

theorem foldl_stepBlock_answered (tools : ToolEnv) :
    ∀ (bs : List ContentBlock) (st : LoopState),
      toolUseAnswered st.msgs = true →
      toolUseAnswered (List.foldl (stepBlock tools) st bs).msgs = true := by
  intro bs
  induction bs with
  | nil => intro st h; exact h
  | cons b bs ih =>
      intro st h
      rw [List.foldl_cons]
      exact ih _ (stepBlock_answered tools st b h)

theorem processRound_answered (tools : ToolEnv) (blocks : List ContentBlock)
    (msgs : List Message) (tc : Nat) (h : toolUseAnswered msgs = true) :
    toolUseAnswered (processRound tools blocks msgs tc).msgs = true :=
  foldl_stepBlock_answered tools blocks ⟨msgs, tc, true⟩ h

theorem processLoopF_answered (tools : ToolEnv)
    (responses : Nat → List ContentBlock) (maxCalls : Nat) :
    ∀ (fuel i : Nat) (msgs : List Message) (tc : Nat),
      toolUseAnswered msgs = true →
      toolUseAnswered (processLoopF tools responses maxCalls fuel i msgs tc).msgs =
        true := by
  intro fuel
  induction fuel with
  | zero => intro i msgs tc h; rw [processLoopF_zero]; exact h
  | succ f ih =>
      intro i msgs tc h
      rw [processLoopF_succ]
      by_cases hlt : tc < maxCalls
      · rw [if_pos hlt]
        by_cases hdone : (processRound tools (responses i) msgs tc).done = true
        · rw [if_pos hdone]
          exact processRound_answered tools (responses i) msgs tc h
        · rw [if_neg hdone]
          exact ih (i + 1) _ _ (processRound_answered tools (responses i) msgs tc h)
      · rw [if_neg hlt]
        exact h

/-! ## Lemmas about the retry loop of `get_response` -/

/-- If the first `k` attempts (counting from `retries`) fail and attempt `k`
succeeds, the loop returns the successful payload after exactly `k + 1`
attempts. -/
theorem getResponseLoop_success :
    ∀ (k fuel retries max_retries : Nat) (attempts : Attempts) (payload : String),
      k < fuel → retries + fuel = max_retries →
      (∀ j, j < k → attempts (retries + j) = none) →
      attempts (retries + k) = some payload →
      getResponseLoop attempts max_retries fuel retries = (some payload, k + 1) := by
  intro k
  induction k with
  | zero =>
      intro fuel retries mr attempts payload hk hsum hnone hsucc
      obtain ⟨f, rfl⟩ : ∃ f, fuel = f + 1 := ⟨fuel - 1, by omega⟩
      rw [Nat.add_zero] at hsucc
      simp [getResponseLoop, hsucc]
  | succ j ih =>
      intro fuel retries mr attempts payload hk hsum hnone hsucc
      obtain ⟨f, rfl⟩ : ∃ f, fuel = f + 1 := ⟨fuel - 1, by omega⟩
      have h0 : attempts retries = none := by
        have := hnone 0 (by omega)
        rwa [Nat.add_zero] at this
      have hne : ¬ retries + 1 = mr := by omega
      have hrec := ih f (retries + 1) mr attempts payload (by omega) (by omega)
        (fun j' hj' => by
          rw [show retries + 1 + j' = retries + (j' + 1) from by omega]
          exact hnone (j' + 1) (by omega))
        (by rw [show retries + 1 + j = retries + (j + 1) from by omega]; exact hsucc)
      simp [getResponseLoop, h0, hne, hrec]


/-- If every attempt fails, the loop makes exactly `fuel` attempts and returns
the absence signal. -/
theorem getResponseLoop_all_fail :
    ∀ (fuel retries max_retries : Nat) (attempts : Attempts),
      0 < fuel → retries + fuel = max_retries →
      (∀ j, j < fuel → attempts (retries + j) = none) →
      getResponseLoop attempts max_retries fuel retries = (none, fuel) := by
  intro fuel
  induction fuel with
  | zero => intro retries mr attempts h0; omega
  | succ f ih =>
      intro retries mr attempts _ hsum hnone
      have ha : attempts retries = none := by
        have := hnone 0 (by omega)
        rwa [Nat.add_zero] at this
      by_cases hf : f = 0
      · subst hf
        have hmr : retries + 1 = mr := by omega
        simp [getResponseLoop, ha, hmr]
      · have hne : ¬ retries + 1 = mr := by omega
        have hrec := ih (retries + 1) mr attempts (by omega) (by omega)
          (fun j hj => by
            rw [show retries + 1 + j = retries + (j + 1) from by omega]
            exact hnone (j + 1) (by omega))
        simp [getResponseLoop, ha, hne, hrec]


/-! ## The claims -/

/-- Claim C1, counterexample: with `max_tool_calls = 1` and one model response
carrying two tool-use blocks, both tools are executed within the round (the
tool-result of the second invocation appears in the history) and the final
counter is `2 > 1`: the budget is checked only at the head of the `while`
loop, never inside the `for` loop over the blocks of a single response. -/
theorem claimC1_counterexample :
    (process_query (fun _ _ _ => ["ok"])
        (fun _ => [.toolUse "a" "t" "x" none, .toolUse "b" "t" "x" none])
        [] "q" 1).tool_calls = 2 ∧
    (⟨"user", .blocks [.toolResult "b" "ok"]⟩ : Message) ∈
      (process_query (fun _ _ _ => ["ok"])
        (fun _ => [.toolUse "a" "t" "x" none, .toolUse "b" "t" "x" none])
        [] "q" 1).msgs := by
  decide

/-- Claim C1, amended: the tool-call counter is strictly below the maximum
whenever a round begins, but all tool-use blocks of the current response are
still honored once the round has started, so the counter can end above the
maximum; it is bounded by `max_tool_calls - 1` plus the largest number of
tool-use blocks in a single model response. -/
theorem claimC1 :
    ∀ (tools : ToolEnv) (responses : Nat → List ContentBlock)
      (msgs : List Message) (q : String) (N B : Nat),
      (∀ j, countToolUse (responses j) ≤ B) →
      (process_query tools responses msgs q N).tool_calls ≤ N - 1 + B := by
  intro tools responses msgs q N B hB
  have h := processLoopF_tool_calls_le tools responses N B hB N 0
    (msgs ++ [⟨"user", .plain q⟩]) 0
  simp only [process_query]
  omega

/-- Claim C1, witness for the amended statement at `max_tool_calls = 1` with
responses of two tool-use blocks each. -/
theorem claimC1_witness :
    (∀ j : Nat, countToolUse ((fun _ => [ContentBlock.toolUse "a" "t" "x" none,
        ContentBlock.toolUse "b" "t" "x" none]) j) ≤ 2) ∧
    (process_query (fun _ _ _ => ["ok"])
        (fun _ => [.toolUse "a" "t" "x" none, .toolUse "b" "t" "x" none])
        [] "q" 1).tool_calls ≤ 1 - 1 + 2 :=
  ⟨fun _ => Nat.le_refl 2,
   claimC1 (fun _ _ _ => ["ok"])
     (fun _ => [.toolUse "a" "t" "x" none, .toolUse "b" "t" "x" none])
     [] "q" 1 2 (fun _ => Nat.le_refl 2)⟩

/-- Claim C2, counterexample: a tool invocation whose joined result is empty
(the placeholder tool-result is in the history) still increments the counter:
`tool_calls += 1` runs before the emptiness test, so the final counter is `1`,
not `0` as the claim demands. -/
theorem claimC2_counterexample :
    (process_query (fun _ _ _ => []) (fun _ => [.toolUse "a" "t" "x" none])
        [] "q" 5).tool_calls = 1 ∧
    (⟨"user", .blocks [.toolResult "a" "No response from tool"]⟩ : Message) ∈
      (process_query (fun _ _ _ => []) (fun _ => [.toolUse "a" "t" "x" none])
        [] "q" 5).msgs := by
  decide

/-- Claim C2, amended: processing a tool-use block always increments the
counter by exactly one, whether or not the joined result is empty; a non-empty
joined result is appended as the tool-result content, an empty one is replaced
by the placeholder. -/
theorem claimC2 :
    ∀ (tools : ToolEnv) (st : LoopState) (id name input : String)
      (accText : Option String),
      (stepBlock tools st (.toolUse id name input accText)).tool_calls =
        st.tool_calls + 1 ∧
      (stepBlock tools st (.toolUse id name input accText)).msgs =
        st.msgs ++
          [⟨"assistant", .blocks ((if pyTruthyStr accText then
              [HistBlock.text (accText.getD "")] else []) ++
              [.toolUse id name input])⟩,
           ⟨"user", .blocks [.toolResult id
              (if joinPieces (tools st.tool_calls name input) = "" then
                "No response from tool"
              else joinPieces (tools st.tool_calls name input))]⟩] := by
  intro tools st id name input accText
  refine ⟨stepBlock_toolUse_tool_calls tools st id name input accText, ?_⟩
  simp only [stepBlock]
  split
  · rw [List.append_assoc]
    rfl
  · rw [List.append_assoc]
    rfl

/-- Claim C3: the orchestrator issues at most `N + 1` inference calls, and the
fuel-indexed loop has converged at fuel `N` (any larger fuel gives the same
result), i.e. the while loop terminates. -/
theorem claimC3 :
    ∀ (tools : ToolEnv) (responses : Nat → List ContentBlock)
      (msgs : List Message) (q : String) (N : Nat),
      (process_query tools responses msgs q N).ncalls ≤ N + 1 ∧
      ∀ fuel, N ≤ fuel →
        processLoopF tools responses N fuel 0 (msgs ++ [⟨"user", .plain q⟩]) 0 =
          process_query tools responses msgs q N := by
  intro tools responses msgs q N
  constructor
  · have h := processLoopF_ncalls_le tools responses N N 0
      (msgs ++ [⟨"user", .plain q⟩]) 0
    simp only [process_query]
    omega
  · intro fuel hf
    have h1 := processLoopF_fuel_ge tools responses N fuel 0
      (msgs ++ [⟨"user", .plain q⟩]) 0 (by omega)
    have h2 := processLoopF_fuel_ge tools responses N N 0
      (msgs ++ [⟨"user", .plain q⟩]) 0 (by omega)
    simp only [process_query]
    rw [h1, ← h2]

/-- Claim C3, witness: at `N = 1` with extra fuel `7` the loop result equals
`process_query`, and at most two inference calls are made. -/
theorem claimC3_witness :
    (process_query (fun _ _ _ => ["ok"]) (fun _ => [.text "hi"])
        [] "q" 1).ncalls ≤ 1 + 1 ∧
    processLoopF (fun _ _ _ => ["ok"]) (fun _ => [.text "hi"]) 1 7 0
        ([] ++ [⟨"user", .plain "q"⟩]) 0 =
      process_query (fun _ _ _ => ["ok"]) (fun _ => [.text "hi"]) [] "q" 1 :=
  ⟨(claimC3 (fun _ _ _ => ["ok"]) (fun _ => [.text "hi"]) [] "q" 1).1,
   (claimC3 (fun _ _ _ => ["ok"]) (fun _ => [.text "hi"]) [] "q" 1).2 7
     (by decide)⟩

/-- Claim C4, counterexample: the first response carries a tool-use block
whose joined result is empty (the placeholder is appended) followed by a
second tool-use block; the second tool is still executed, its result resets
the `done` flag, and a second inference call is made — the round does not
terminate at the empty result. -/
theorem claimC4_counterexample :
    (process_query (fun _ n _ => if n = "e" then [] else ["ok"])
        (fun i => if i = 0 then
            [.toolUse "a" "e" "x" none, .toolUse "b" "f" "x" none]
          else [.text "fin"])
        [] "q" 5).ncalls = 2 ∧
    (⟨"user", .blocks [.toolResult "a" "No response from tool"]⟩ : Message) ∈
      (process_query (fun _ n _ => if n = "e" then [] else ["ok"])
        (fun i => if i = 0 then
            [.toolUse "a" "e" "x" none, .toolUse "b" "f" "x" none]
          else [.text "fin"])
        [] "q" 5).msgs ∧
    (⟨"user", .blocks [.toolResult "b" "ok"]⟩ : Message) ∈
      (process_query (fun _ n _ => if n = "e" then [] else ["ok"])
        (fun i => if i = 0 then
            [.toolUse "a" "e" "x" none, .toolUse "b" "f" "x" none]
          else [.text "fin"])
        [] "q" 5).msgs := by
  decide

/-- Claim C4, amended: a tool invocation with an empty joined result appends
the placeholder tool-result and sets the round-termination flag; the round
then terminates — regardless of the counter still being below the maximum —
provided no later tool-use block of the same response resets the flag: after
such an invocation followed only by text blocks the round state ends with
`done = true`, and the loop makes exactly one inference call for that
round. -/
theorem claimC4 :
    (∀ (tools : ToolEnv) (st : LoopState) (id name input : String)
        (accText : Option String) (rest : List ContentBlock),
      joinPieces (tools st.tool_calls name input) = "" →
      hasToolUse rest = false →
      List.foldl (stepBlock tools)
          (stepBlock tools st (.toolUse id name input accText)) rest =
        ⟨st.msgs ++
            [⟨"assistant", .blocks ((if pyTruthyStr accText then
                [HistBlock.text (accText.getD "")] else []) ++
                [.toolUse id name input])⟩,
             ⟨"user", .blocks [.toolResult id "No response from tool"]⟩] ++
            rest.map asAssistantText,
          st.tool_calls + 1, true⟩) ∧
    (∀ (tools : ToolEnv) (responses : Nat → List ContentBlock)
        (maxCalls fuel i : Nat) (msgs : List Message) (tc : Nat)
        (id name input : String) (accText : Option String)
        (rest : List ContentBlock),
      responses i = .toolUse id name input accText :: rest →
      joinPieces (tools tc name input) = "" →
      hasToolUse rest = false →
      tc < maxCalls →
      (processLoopF tools responses maxCalls (fuel + 1) i msgs tc).ncalls = 1) := by
  constructor
  · intro tools st id name input accText rest hempty hrest
    exact foldl_stepBlock_empty_then_text tools st id name input accText rest
      hempty hrest
  · intro tools responses maxCalls fuel i msgs tc id name input accText rest
      hresp hempty hrest hlt
    have hround : processRound tools (responses i) msgs tc =
        ⟨(msgs ++
            [⟨"assistant", .blocks ((if pyTruthyStr accText then
                [HistBlock.text (accText.getD "")] else []) ++
                [.toolUse id name input])⟩,
             ⟨"user", .blocks [.toolResult id "No response from tool"]⟩]) ++
            rest.map asAssistantText,
          tc + 1, true⟩ := by
      rw [processRound, hresp, List.foldl_cons]
      exact foldl_stepBlock_empty_then_text tools ⟨msgs, tc, true⟩ id name input
        accText rest hempty hrest
    rw [processLoopF_succ, if_pos hlt, hround]
    rfl

/-- Claim C4, witness: a single empty-result invocation with nothing after it
(counter far below the maximum) yields a round that terminates after one
inference call. -/
theorem claimC4_witness :
    (processLoopF (fun _ _ _ => [])
        (fun _ => [ContentBlock.toolUse "a" "t" "x" none]) 5 5 0 [] 0).ncalls
      = 1 :=
  claimC4.2 (fun _ _ _ => []) (fun _ => [ContentBlock.toolUse "a" "t" "x" none])
    5 4 0 [] 0 "a" "t" "x" none [] rfl rfl rfl (by decide)

/-- Claim C6, counterexample: a first response of two text blocks and no
tool-use yields one inference call and no tool calls, but the history grows by
three messages (the user query plus one assistant message per text block), not
by exactly two. -/
theorem claimC6_counterexample :
    (process_query (fun _ _ _ => ["ok"]) (fun _ => [.text "a", .text "b"])
        [] "q" 5).ncalls = 1 ∧
    (process_query (fun _ _ _ => ["ok"]) (fun _ => [.text "a", .text "b"])
        [] "q" 5).tool_calls = 0 ∧
    (process_query (fun _ _ _ => ["ok"]) (fun _ => [.text "a", .text "b"])
        [] "q" 5).msgs.length = 3 := by
  decide

/-- Claim C6, amended: when `max_tool_calls ≥ 1` and the first model response
contains only text blocks, exactly one inference call is made, the round ends
with the counter at zero, and the history grows by one user message plus one
assistant message per text block — exactly two messages when the response is a
single text block. -/
theorem claimC6 :
    ∀ (tools : ToolEnv) (responses : Nat → List ContentBlock)
      (msgs : List Message) (q : String) (N : Nat),
      1 ≤ N →
      (∀ b ∈ responses 0, isText b = true) →
      (process_query tools responses msgs q N).ncalls = 1 ∧
      (process_query tools responses msgs q N).tool_calls = 0 ∧
      (process_query tools responses msgs q N).msgs.length =
        msgs.length + 1 + (responses 0).length := by
  intro tools responses msgs q N hN hall
  obtain ⟨f, rfl⟩ : ∃ f, N = f + 1 := ⟨N - 1, by omega⟩
  have hround : processRound tools (responses 0) (msgs ++ [⟨"user", .plain q⟩]) 0 =
      ⟨(msgs ++ [⟨"user", .plain q⟩]) ++ (responses 0).map asAssistantText, 0, true⟩ := by
    exact foldl_stepBlock_all_text tools (responses 0)
      ⟨msgs ++ [⟨"user", MsgContent.plain q⟩], 0, true⟩ hall
  simp only [process_query]
  rw [processLoopF_succ, if_pos (Nat.succ_pos f), hround]
  refine ⟨rfl, rfl, ?_⟩
  simp [List.length_append, List.length_map]
  omega

/-- Claim C6, witness at a single-text-block response: history length is
exactly two. -/
theorem claimC6_witness :
    (process_query (fun _ _ _ => ["ok"]) (fun _ => [.text "hi"])
        [] "q" 1).ncalls = 1 ∧
    (process_query (fun _ _ _ => ["ok"]) (fun _ => [.text "hi"])
        [] "q" 1).msgs.length = 2 :=
  ⟨(claimC6 (fun _ _ _ => ["ok"]) (fun _ => [.text "hi"]) [] "q" 1
      (by decide) (by decide)).1,
   (claimC6 (fun _ _ _ => ["ok"]) (fun _ => [.text "hi"]) [] "q" 1
      (by decide) (by decide)).2.2⟩

/-- Claim C7: if the incoming history satisfies the adjacency invariant (every
message carrying a tool-use block is immediately followed by the tool-result
message correlated by its id), then the invariant holds for the full history
produced by `process_query`, and it holds at the end of every round, i.e. at
each point where a further inference call could be issued. -/
theorem claimC7 :
    ∀ (tools : ToolEnv) (responses : Nat → List ContentBlock)
      (msgs : List Message) (q : String) (N : Nat)
      (blocks : List ContentBlock) (tc : Nat),
      toolUseAnswered msgs = true →
      toolUseAnswered (process_query tools responses msgs q N).msgs = true ∧
      toolUseAnswered (processRound tools blocks msgs tc).msgs = true := by
  intro tools responses msgs q N blocks tc h
  refine ⟨?_, processRound_answered tools blocks msgs tc h⟩
  exact processLoopF_answered tools responses N N 0 _ 0
    (toolUseAnswered_append_one msgs _ h rfl)

/-- Claim C7, witness on an empty starting history with one tool round. -/
theorem claimC7_witness :
    toolUseAnswered (process_query (fun _ _ _ => ["r"])
        (fun _ => [ContentBlock.toolUse "a" "t" "x" none]) [] "q" 3).msgs
      = true ∧
    toolUseAnswered (processRound (fun _ _ _ => ["r"])
        [ContentBlock.toolUse "a" "t" "x" none] [] 0).msgs = true :=
  claimC7 (fun _ _ _ => ["r"]) (fun _ => [ContentBlock.toolUse "a" "t" "x" none])
    [] "q" 3 [ContentBlock.toolUse "a" "t" "x" none] 0 rfl

/-- Claim C9: with `max_tool_calls = 0` the while loop is never entered —
whatever the model would answer, no inference call is made, no tool is
executed, the counter stays at zero and the history only gains the user
query. -/
theorem claimC9 :
    ∀ (tools : ToolEnv) (responses : Nat → List ContentBlock)
      (msgs : List Message) (q : String),
      process_query tools responses msgs q 0 =
        ⟨msgs ++ [⟨"user", .plain q⟩], 0, 0⟩ := by
  intro tools responses msgs q
  rfl


/-- Claim C5: `get_response` with `max_retries = 5`. If the first `k < 5`
attempts fail and attempt `k` succeeds, exactly `k + 1` attempts are made and
the parsed payload is returned; if all five attempts fail, exactly five
attempts are made and the absence signal `none` is returned — the total
function never propagates an exception. -/
theorem claimC5 :
    ∀ attempts : Attempts,
      (∀ (k : Nat) (payload : String), k < 5 →
        (∀ j, j < k → attempts j = none) → attempts k = some payload →
        get_response attempts = (some payload, k + 1)) ∧
      ((∀ j, j < 5 → attempts j = none) → get_response attempts = (none, 5)) := by
  intro attempts
  constructor
  · intro k payload hk hnone hsucc
    have h := getResponseLoop_success k 5 0 5 attempts payload hk (by omega)
      (fun j hj => by simpa using hnone j hj) (by simpa using hsucc)
    simpa [get_response] using h
  · intro hall
    have h := getResponseLoop_all_fail 5 0 5 attempts (by omega) (by omega)
      (fun j hj => by simpa using hall j hj)
    simpa [get_response] using h

/-- Claim C5, witness: two failures then a success give the payload in three
attempts; constant failure gives the absence signal in five attempts. -/
theorem claimC5_witness :
    get_response (fun n => if n = 2 then some "ok" else none) = (some "ok", 3) ∧
    get_response (fun _ => none) = (none, 5) :=
  ⟨(claimC5 (fun n => if n = 2 then some "ok" else none)).1 2 "ok"
      (by decide) (by decide) (by decide),
   (claimC5 (fun _ => none)).2 (by decide)⟩

/-- Claim C8: whenever the fetch of the tool's endpoint returns the absence
signal `none`, each tool degrades to a well-typed empty result instead of
failing: `get_sessions` returns (without raising) the empty session list, and
`get_drivers`, `get_laps`, `get_track_conditions` return the empty list. -/
theorem claimC8 :
    ∀ (fS : String → Option (List SessionJson))
      (fM : String → Option (List MeetingJson))
      (fD : String → Option (List DriverJson))
      (fL : String → Option (List LapJson))
      (fW : String → Option (List TrackConditionsJson))
      (date_start : String) (session_type : Option String)
      (session_key : Int) (driver_number : Option Int)
      (lap_driver : Int) (start_date : Option String),
      (fS (sessionsUrl date_start session_type) = none →
        get_sessions fS fM date_start session_type = some []) ∧
      (fD (driversUrl session_key driver_number) = none →
        get_drivers fD session_key driver_number = []) ∧
      (fL (lapsUrl session_key lap_driver) = none →
        get_laps fL session_key lap_driver = []) ∧
      (fW (weatherUrl session_key start_date) = none →
        get_track_conditions fW session_key start_date = []) := by
  intro fS fM fD fL fW date_start session_type session_key driver_number
    lap_driver start_date
  refine ⟨fun h => ?_, fun h => ?_, fun h => ?_, fun h => ?_⟩
  · simp [get_sessions, h]
  · simp [get_drivers, h]
  · simp [get_laps, h]
  · simp [get_track_conditions, h]

/-- Claim C8, witness: with a fetch that always returns the absence signal,
all four tools return their empty result. -/
theorem claimC8_witness :
    get_sessions (fun _ => none) (fun _ => none) "2024-01-01" none = some [] ∧
    get_drivers (fun _ => none) 7 none = [] ∧
    get_laps (fun _ => none) 7 44 = [] ∧
    get_track_conditions (fun _ => none) 7 none = [] := by
  have h := claimC8 (fun _ => none) (fun _ => none) (fun _ => none)
    (fun _ => none) (fun _ => none) "2024-01-01" none 7 none 44 none
  exact ⟨h.1 rfl, h.2.1 rfl, h.2.2.1 rfl, h.2.2.2 rfl⟩

/-- Claim C10: `get_drivers` with `driver_number = 0` builds the same request
URL as with `driver_number = None` (the falsy `0` omits the filter) and hence
returns the same result for any fetch environment; for a non-zero driver
number the filter is appended. -/
theorem claimC10 :
    ∀ (fetch : String → Option (List DriverJson)) (session_key : Int),
      driversUrl session_key (some 0) = driversUrl session_key none ∧
      get_drivers fetch session_key (some 0) =
        get_drivers fetch session_key none ∧
      ∀ n : Int, n ≠ 0 →
        driversUrl session_key (some n) =
          driversUrl session_key none ++ "&driver_number=" ++ toString n := by
  intro fetch session_key
  refine ⟨rfl, rfl, fun n hn => ?_⟩
  simp [driversUrl, pyTruthyInt, hn]

/-- Claim C10, witness at `session_key = 7`: driver number `0` is dropped,
driver number `44` is kept. -/
theorem claimC10_witness :
    driversUrl 7 (some 0) = driversUrl 7 none ∧
    driversUrl 7 (some 44) =
      driversUrl 7 none ++ "&driver_number=" ++ toString (44 : Int) :=
  ⟨(claimC10 (fun _ => none) 7).1,
   (claimC10 (fun _ => none) 7).2.2 44 (by decide)⟩


end MCPDemo
